/-
Verification of the Excel-barcode conversion tool (`app.py`).

The program is a single linear transform:
  * `excel_col_to_index` converts an Excel column letter to a 0-based index
    (stripping whitespace and uppercasing first, base-26 over A..Z,
    raising `ValueError` on any other remaining character);
  * `generate_excel_with_barcodes` loads the first sheet as a table with no
    header interpretation, widens the table up to the barcode column, copies
    every non-NaN cell into a fresh worksheet, writes a "Barcode" header
    label, applies formatting, and then for every data row normalizes the
    source cell text to a digit string, picks EAN-13 / EAN-8 / Code128 by
    length, renders an image and inserts it, logging and skipping rows whose
    rendering fails.

We embed the string-level helpers directly, and the orchestration as a
function from a table to the list of worksheet actions it performs (or the
exception it escapes with), parameterized by a rendering oracle standing in
for the barcode library.  Cell contents are modelled after Python's `str()`
form of the value, since the code immediately coerces the cell through
`str`; `NaN` cells are `none`.
-/
import Mathlib

namespace BarcodeApp

/-! ### Python string primitives

Python compares characters by code point, so all character tests are stated
on `Char.toNat`. -/

/-- Python whitespace for `str.strip` (ASCII part: the inputs in scope are
ASCII): space, tab, newline, carriage return, vertical tab, form feed. -/
def isPySpace (c : Char) : Bool :=
  c.toNat == 32 || c.toNat == 9 || c.toNat == 10 || c.toNat == 13 ||
  c.toNat == 11 || c.toNat == 12

/-- Python `str.strip()`: drop whitespace from both ends. -/
def pyStrip (l : List Char) : List Char :=
  ((l.dropWhile isPySpace).reverse.dropWhile isPySpace).reverse

/-- Python `str.upper()` on one character (ASCII range). -/
def pyUpperChar (c : Char) : Char :=
  if 97 ≤ c.toNat ∧ c.toNat ≤ 122 then Char.ofNat (c.toNat - 32) else c

/-- Python `str.upper()`. -/
def pyUpper (l : List Char) : List Char := l.map pyUpperChar

/-- Python `ch.isdigit()` restricted to ASCII decimal digits `0`..`9`. -/
def pyIsDigit (c : Char) : Bool := 48 ≤ c.toNat && c.toNat ≤ 57

/-! ### `excel_col_to_index` (app.py lines 12-23) -/

/-- One step of the accumulator loop: `result = result * 26 + (ord(ch) - ord("A") + 1)`. -/
def colStep (acc : Nat) (c : Char) : Nat := acc * 26 + (c.toNat - 65 + 1)

/-- The loop of `excel_col_to_index`: validates each character
(Python `"A" <= ch <= "Z"` compares code points) and folds `colStep`;
`none` models the raised `ValueError`. -/
def colFold : Nat → List Char → Option Nat
  | acc, [] => some acc
  | acc, c :: cs =>
    if 65 ≤ c.toNat ∧ c.toNat ≤ 90 then colFold (colStep acc c) cs else none

/-- `excel_col_to_index(col)`: strip, uppercase, fold base-26, subtract 1.
`none` models the raised `ValueError`; the result is an `Int` because the
empty label yields `0 - 1 = -1`. -/
def excel_col_to_index (col : String) : Option Int :=
  (colFold 0 (pyUpper (pyStrip col.data))).map (fun n => (n : Int) - 1)

/-! ### Code normalizer and symbology selector (app.py lines 84-106) -/

/-- `ean_str[:-2]` applied when `ean_str.endswith(".0")`. -/
def stripDot0 (l : List Char) : List Char :=
  if l.drop (l.length - 2) = ['.', '0'] then l.take (l.length - 2) else l

/-- The per-row normalization of the source cell (app.py lines 84-97):
skip `NaN` cells; strip the text; drop a trailing literal `".0"`; keep only
digits; skip if nothing remains.  `none` is the skip signal (`continue`). -/
def normalize_code : Option String → Option String
  | none => none
  | some raw =>
    let t := stripDot0 (pyStrip raw.data)
    let d := t.filter pyIsDigit
    if d = [] then none else some ⟨d⟩

/-- The three barcode symbologies the program can select. -/
inductive Sym : Type
  | ean13 : Sym
  | ean8 : Sym
  | code128 : Sym
deriving DecidableEq

/-- The length dispatch choosing the barcode class (app.py lines 100-106). -/
def selectSymbology (s : String) : Sym :=
  if s.length = 13 then Sym.ean13
  else if s.length = 8 then Sym.ean8
  else Sym.code128

/-! ### The conversion (`generate_excel_with_barcodes`, app.py lines 26-128)

The pandas table is a rectangular grid of cells; a cell is `none` for `NaN`
and otherwise the `str()` form of its value.  The worksheet built by
xlsxwriter is modelled as the ordered list of calls made on it; the barcode
library is a rendering oracle `render r code sym` saying whether the `try`
body for row `r` succeeds.  The `float` row-height / column-width values are
purely cosmetic and are not carried in the actions beyond the target
row/column of the call. -/

/-- The in-memory table (pandas `DataFrame` parsed with `header=None`):
`data r c` is meaningful for `r < nrows` and `c < ncols`. -/
structure DataFrame : Type where
  nrows : Nat
  ncols : Nat
  data : Nat → Nat → Option String

/-- One call on the output worksheet, in the order the code makes them. -/
inductive Action : Type
  | writeCell (r c : Int) (v : String) : Action
  | setColumn (c : Int) : Action
  | setRow (r : Int) : Action
  | insertImage (r c : Int) (code : String) (sym : Sym) : Action
  | logError (rowNum : Int) (code : String) : Action
deriving DecidableEq

/-- The exceptions that escape `generate_excel_with_barcodes`:
the `ValueError` of `excel_col_to_index` and the `IndexError` of an
out-of-bounds `df.iat` read (app.py line 82, outside the `try`). -/
inductive GenError : Type
  | invalidColumn : GenError
  | indexError : GenError
deriving DecidableEq

/-- Python sequence indexing: `0 ≤ i < n` direct, `-n ≤ i < 0` wraps from
the end, anything else raises `IndexError` (`none`). -/
def pyIdx (n : Nat) (i : Int) : Option Nat :=
  if 0 ≤ i then (if i < (n : Int) then some i.toNat else none)
  else (if 0 ≤ i + (n : Int) then some (i + (n : Int)).toNat else none)

/-- `df.iat[r, c]`: `.error` models the raised `IndexError`. -/
def iat (df : DataFrame) (r c : Int) : Except GenError (Option String) :=
  match pyIdx df.nrows r, pyIdx df.ncols c with
  | some ri, some ci => Except.ok (df.data ri ci)
  | _, _ => Except.error GenError.indexError

/-- Closed form of the widening loop (app.py lines 49-50):
`while df.shape[1] <= barcode_col_idx: df[df.shape[1]] = None`
appends all-`None` columns until the column count exceeds the barcode
column index. -/
def widen (df : DataFrame) (idx : Int) : DataFrame :=
  if (df.ncols : Int) ≤ idx then
    { nrows := df.nrows
      ncols := idx.toNat + 1
      data := fun r c => if c < df.ncols then df.data r c else none }
  else df

/-- Python `range(a, b)` over `Int`. -/
def intRange (a b : Int) : List Int :=
  (List.range (b - a).toNat).map (fun k : Nat => a + (k : Int))

/-- Concatenation of a list of lists (kept local for stable lemmas). -/
def catList : List (List α) → List α
  | [] => []
  | l :: ls => l ++ catList ls

/-- The copy pass (app.py lines 63-68): every non-`NaN` cell of the table is
written at its own coordinates, in row-major order. -/
def copyActions (df : DataFrame) : List Action :=
  catList ((List.range df.nrows).map (fun r =>
    (List.range df.ncols).filterMap (fun c =>
      (df.data r c).map (fun v => Action.writeCell (r : Int) (c : Int) v))))

/-- The body of the barcode loop for one row (app.py lines 82-124):
read the source cell (an out-of-bounds read raises), skip `NaN`, normalize,
skip empty, select the symbology, then either insert the rendered image or
log the failure (`print` uses the 1-based row `r+1`) and continue. -/
def rowStep (df : DataFrame) (eanIdx bcIdx : Int)
    (render : Int → String → Sym → Bool) (r : Int) :
    Except GenError (List Action) :=
  match iat df r eanIdx with
  | Except.error e => Except.error e
  | Except.ok none => Except.ok []
  | Except.ok (some v) =>
    match normalize_code (some v) with
    | none => Except.ok []
    | some code =>
      let sym := selectSymbology code
      if render r code sym then
        Except.ok [Action.insertImage r bcIdx code sym]
      else
        Except.ok [Action.logError (r + 1) code]

/-- The barcode loop over the listed row indices; a raised `IndexError`
aborts the whole loop (and hence the conversion). -/
def barcodeLoop (df : DataFrame) (eanIdx bcIdx : Int)
    (render : Int → String → Sym → Bool) : List Int →
    Except GenError (List Action)
  | [] => Except.ok []
  | r :: rs =>
    match rowStep df eanIdx bcIdx render r with
    | Except.error e => Except.error e
    | Except.ok a =>
      match barcodeLoop df eanIdx bcIdx render rs with
      | Except.error e => Except.error e
      | Except.ok rest => Except.ok (a ++ rest)

/-- `generate_excel_with_barcodes`: resolve both column letters (a
`ValueError` escapes as a request-level failure before any output exists),
widen the table up to the barcode column, then emit the worksheet calls:
the copy pass, the "Barcode" header label, the column-width call, the
row-height calls from the data start row, and the per-row barcode pass.
`Except.error` means the conversion raised and returned no workbook. -/
def generate_excel_with_barcodes (ean_col_letter barcode_col_letter : String)
    (header_row_excel data_start_row_excel : Int) (df : DataFrame)
    (render : Int → String → Sym → Bool) :
    Except GenError (List Action) :=
  match excel_col_to_index ean_col_letter with
  | none => Except.error GenError.invalidColumn
  | some ean_col_idx =>
    match excel_col_to_index barcode_col_letter with
    | none => Except.error GenError.invalidColumn
    | some barcode_col_idx =>
      let df2 := widen df barcode_col_idx
      let header_row_idx := header_row_excel - 1
      let data_start_idx := data_start_row_excel - 1
      match barcodeLoop df2 ean_col_idx barcode_col_idx render
        (intRange data_start_idx (df2.nrows : Int)) with
      | Except.error e => Except.error e
      | Except.ok loopActs =>
        Except.ok (copyActions df2
          ++ [Action.writeCell header_row_idx barcode_col_idx "Barcode"]
          ++ [Action.setColumn barcode_col_idx]
          ++ (intRange data_start_idx (df2.nrows : Int)).map Action.setRow
          ++ loopActs)

/-! ### Basic lemmas about the string primitives -/

theorem mem_of_mem_pyStrip {c : Char} {l : List Char} (h : c ∈ pyStrip l) :
    c ∈ l := by
  unfold pyStrip at h
  rw [List.mem_reverse] at h
  have h2 := List.Sublist.mem h (List.dropWhile_sublist isPySpace)
  rw [List.mem_reverse] at h2
  exact List.Sublist.mem h2 (List.dropWhile_sublist isPySpace)

theorem mem_of_mem_stripDot0 {c : Char} {l : List Char}
    (h : c ∈ stripDot0 l) : c ∈ l := by
  unfold stripDot0 at h
  split at h
  · exact List.Sublist.mem h (List.take_sublist _ _)
  · exact h

theorem dropWhile_eq_self_of_all {p : Char → Bool} {l : List Char}
    (h : ∀ c ∈ l, p c = false) : l.dropWhile p = l := by
  cases l with
  | nil => rfl
  | cons c cs => simp [List.dropWhile, h c (List.mem_cons_self c cs)]

theorem pyStrip_eq_self_of_all {l : List Char}
    (h : ∀ c ∈ l, isPySpace c = false) : pyStrip l = l := by
  unfold pyStrip
  rw [dropWhile_eq_self_of_all h]
  rw [dropWhile_eq_self_of_all (fun c hc => h c (List.mem_reverse.mp hc))]
  exact List.reverse_reverse l

theorem stripDot0_eq_self_of_digits {l : List Char}
    (h : ∀ c ∈ l, pyIsDigit c) : stripDot0 l = l := by
  unfold stripDot0
  by_cases h2 : l.drop (l.length - 2) = ['.', '0']
  · exfalso
    have hdot : '.' ∈ l.drop (l.length - 2) := by rw [h2]; simp
    have := h '.' (List.Sublist.mem hdot (List.drop_sublist _ _))
    simp [pyIsDigit] at this
  · rw [if_neg h2]

theorem digit_not_space {c : Char} (h : pyIsDigit c) : isPySpace c = false := by
  simp only [pyIsDigit, Bool.and_eq_true, decide_eq_true_eq] at h
  simp only [isPySpace, Bool.or_eq_false_iff, beq_eq_false_iff_ne, ne_eq]
  omega

/-- Unfolding of the normalizer on a present value. -/
theorem normalize_code_some (raw : String) :
    normalize_code (some raw) =
      (if (stripDot0 (pyStrip raw.data)).filter pyIsDigit = [] then none
       else some (String.mk ((stripDot0 (pyStrip raw.data)).filter pyIsDigit))) :=
  rfl

/-- On a digit-only string the normalizer is the identity (or the skip
signal when the string is empty). -/
theorem normalize_code_digits (s : String) (h : ∀ c ∈ s.data, pyIsDigit c) :
    normalize_code (some s) = if s.data = [] then none else some s := by
  rw [normalize_code_some,
    pyStrip_eq_self_of_all (fun c hc => digit_not_space (h c hc)),
    stripDot0_eq_self_of_digits h, List.filter_eq_self.mpr h]

/-! ### C1: symbology selection -/

/-- C1: on a non-empty normalized digit string the selector picks EAN-13
exactly at length 13, EAN-8 exactly at length 8, and Code128 exactly at
every other length; no other symbology exists to be chosen. -/
theorem symbology_selection (s : String) (_hne : s ≠ "")
    (_hdig : ∀ c ∈ s.data, pyIsDigit c) :
    (selectSymbology s = Sym.ean13 ↔ s.length = 13) ∧
    (selectSymbology s = Sym.ean8 ↔ s.length = 8) ∧
    (selectSymbology s = Sym.code128 ↔ (s.length ≠ 13 ∧ s.length ≠ 8)) := by
  unfold selectSymbology
  by_cases h13 : s.length = 13 <;> by_cases h8 : s.length = 8 <;>
    simp [h13, h8]

theorem symbology_selection_witness :
    ("12345" : String) ≠ "" ∧
    (selectSymbology "12345" = Sym.ean13 ↔ ("12345" : String).length = 13) ∧
    (selectSymbology "12345" = Sym.ean8 ↔ ("12345" : String).length = 8) ∧
    (selectSymbology "12345" = Sym.code128 ↔
      (("12345" : String).length ≠ 13 ∧ ("12345" : String).length ≠ 8)) :=
  ⟨by decide, symbology_selection "12345" (by decide) (by decide)⟩

/-! ### C5: the normalizer pipeline -/

/-- C5: the normalizer skips absent values, turns the text
`"4006381333931.0"` into the 13-digit string `"4006381333931"` (which the
selector renders as EAN-13), and for any cell text containing no digit the
row is skipped: its `rowStep` performs no action at all. -/
theorem normalizer_pipeline :
    normalize_code none = none ∧
    normalize_code (some "4006381333931.0") = some "4006381333931" ∧
    ("4006381333931" : String).length = 13 ∧
    selectSymbology "4006381333931" = Sym.ean13 ∧
    (∀ raw : String, (∀ c ∈ raw.data, pyIsDigit c = false) →
      normalize_code (some raw) = none) ∧
    (∀ (df : DataFrame) (eanIdx bcIdx : Int)
      (render : Int → String → Sym → Bool) (r : Int) (raw : String),
      iat df r eanIdx = Except.ok (some raw) →
      (∀ c ∈ raw.data, pyIsDigit c = false) →
      rowStep df eanIdx bcIdx render r = Except.ok []) := by
  have hnone : ∀ raw : String, (∀ c ∈ raw.data, pyIsDigit c = false) →
      normalize_code (some raw) = none := by
    intro raw h
    rw [normalize_code_some]
    have : (stripDot0 (pyStrip raw.data)).filter pyIsDigit = [] := by
      refine List.filter_eq_nil_iff.mpr (fun c hc => ?_)
      simp [h c (mem_of_mem_pyStrip (mem_of_mem_stripDot0 hc))]
    simp [this]
  refine ⟨rfl, by decide, by decide, by decide, hnone, ?_⟩
  intro df eanIdx bcIdx render r raw hread h
  unfold rowStep
  rw [hread]
  dsimp only
  rw [hnone raw h]

/-! ### C8: idempotence on digit strings -/

/-- C8: the normalizer is idempotent on already digit-only strings. -/
theorem normalize_idempotent (s : String) (h : ∀ c ∈ s.data, pyIsDigit c) :
    normalize_code (normalize_code (some s)) = normalize_code (some s) := by
  rw [normalize_code_digits s h]
  by_cases hs : s.data = []
  · simp [hs, normalize_code]
  · simp only [hs, if_false]
    rw [normalize_code_digits s h]
    simp [hs]

theorem normalizer_pipeline_witness :
    normalize_code (some "abc") = none :=
  normalizer_pipeline.2.2.2.2.1 "abc" (by decide)

theorem normalize_idempotent_witness :
    (∀ c ∈ ("4006381333931" : String).data, pyIsDigit c) ∧
    normalize_code (normalize_code (some "4006381333931")) =
      normalize_code (some "4006381333931") :=
  ⟨by decide, normalize_idempotent "4006381333931" (by decide)⟩

/-! ### C9: empty, whitespace-only and lowercase labels -/

/-- C9: the resolver raises no error on the empty or whitespace-only label
and returns the negative index `-1`; lowercase letters and surrounding
whitespace are accepted because the label is stripped and uppercased before
validation. -/
theorem column_resolver_lenient :
    excel_col_to_index "" = some (-1) ∧
    excel_col_to_index "  " = some (-1) ∧
    (-1 : Int) < 0 ∧
    excel_col_to_index " b " = some 1 := by decide

/-! ### C2: the column decoder is strictly increasing under shortlex

`excel_col_to_index` on an all-uppercase label folds `colStep` over the
characters; `colVal` names that fold, and `shortlex` is the base-26
(length-then-lexicographic) ordering of labels the claim refers to. -/

/-- The accumulator value of the `excel_col_to_index` loop on a label
whose characters all pass validation. -/
def colVal (l : List Char) : Nat := l.foldl colStep 0

/-- A label over `A`..`Z` (code points 65..90), the claim's label universe. -/
def validCol (l : List Char) : Prop := ∀ c ∈ l, 65 ≤ c.toNat ∧ c.toNat ≤ 90

instance : DecidablePred validCol := fun l => by
  unfold validCol; infer_instance

/-- Lexicographic comparison of equal-length labels by code point. -/
def lexLt : List Char → List Char → Bool
  | [], [] => false
  | [], _ :: _ => true
  | _ :: _, [] => false
  | a :: s, b :: t =>
    if a.toNat < b.toNat then true
    else if b.toNat < a.toNat then false
    else lexLt s t

/-- Shortlex (base-26) ordering of labels: shorter first, then
lexicographic among equal lengths. -/
def shortlex (l₁ l₂ : List Char) : Prop :=
  l₁.length < l₂.length ∨ (l₁.length = l₂.length ∧ lexLt l₁ l₂ = true)

instance : ∀ l₁ l₂, Decidable (shortlex l₁ l₂) := fun _ _ =>
  inferInstanceAs (Decidable (_ ∨ _))

/-- `Lsum n = 26^0 + ⋯ + 26^(n-1)`, the least accumulator value of a
length-`n` label. -/
def Lsum : Nat → Nat
  | 0 => 0
  | n + 1 => Lsum n + 26 ^ n

theorem colVal_foldl_acc (l : List Char) (acc : Nat) :
    l.foldl colStep acc = acc * 26 ^ l.length + l.foldl colStep 0 := by
  induction l generalizing acc with
  | nil => simp
  | cons c cs ih =>
    show cs.foldl colStep (colStep acc c) = _
    rw [ih (colStep acc c)]
    conv_rhs => rw [show (c :: cs).foldl colStep 0 = cs.foldl colStep (colStep 0 c) from rfl]
    rw [ih (colStep 0 c)]
    show (acc * 26 + (c.toNat - 65 + 1)) * 26 ^ cs.length + _ =
      acc * 26 ^ (cs.length + 1) + ((0 * 26 + (c.toNat - 65 + 1)) * 26 ^ cs.length + _)
    ring

theorem colVal_cons (c : Char) (cs : List Char) :
    colVal (c :: cs) = (c.toNat - 65 + 1) * 26 ^ cs.length + colVal cs := by
  show cs.foldl colStep (colStep 0 c) = _
  rw [colVal_foldl_acc cs (colStep 0 c)]
  show (0 * 26 + (c.toNat - 65 + 1)) * 26 ^ cs.length + _ = _
  ring_nf
  rfl

theorem Lsum_succ_eq (n : Nat) : 25 * Lsum n + 1 = 26 ^ n := by
  induction n with
  | zero => rfl
  | succ n ih =>
    show 25 * (Lsum n + 26 ^ n) + 1 = 26 ^ (n + 1)
    rw [pow_succ]
    omega

theorem Lsum_le_colVal (l : List Char) : Lsum l.length ≤ colVal l := by
  induction l with
  | nil => exact Nat.le_refl 0
  | cons c cs ih =>
    rw [colVal_cons]
    show Lsum cs.length + 26 ^ cs.length ≤ _
    have h1 : 1 * 26 ^ cs.length ≤ (c.toNat - 65 + 1) * 26 ^ cs.length :=
      Nat.mul_le_mul_right _ (by omega)
    omega

theorem colVal_le_of_valid {l : List Char} (h : validCol l) :
    colVal l ≤ 26 * Lsum l.length := by
  induction l with
  | nil => exact Nat.le_refl 0
  | cons c cs ih =>
    rw [colVal_cons]
    have hc := h c (List.mem_cons_self c cs)
    have hcs := ih (fun d hd => h d (List.mem_cons_of_mem c hd))
    have h1 : (c.toNat - 65 + 1) * 26 ^ cs.length ≤ 26 * 26 ^ cs.length :=
      Nat.mul_le_mul_right _ (by omega)
    show _ ≤ 26 * (Lsum cs.length + 26 ^ cs.length)
    omega

theorem Lsum_mono {a b : Nat} (h : a ≤ b) : Lsum a ≤ Lsum b := by
  induction b with
  | zero => simp_all [Nat.le_zero.mp h]
  | succ b ih =>
    rcases Nat.lt_or_ge a (b + 1) with h2 | h2
    · exact Nat.le_trans (ih (Nat.lt_succ_iff.mp h2)) (Nat.le_add_right _ _)
    · have : a = b + 1 := Nat.le_antisymm h h2
      exact this ▸ Nat.le_refl _

theorem colVal_lt_of_length_lt {l₁ l₂ : List Char} (hv₁ : validCol l₁)
    (hlen : l₁.length < l₂.length) : colVal l₁ < colVal l₂ := by
  have h1 : colVal l₁ ≤ 26 * Lsum l₁.length := colVal_le_of_valid hv₁
  have h2 : 26 * Lsum l₁.length < Lsum (l₁.length + 1) := by
    have := Lsum_succ_eq l₁.length
    show _ < Lsum l₁.length + 26 ^ l₁.length
    omega
  have h3 : Lsum (l₁.length + 1) ≤ Lsum l₂.length := Lsum_mono hlen
  have h4 : Lsum l₂.length ≤ colVal l₂ := Lsum_le_colVal l₂
  omega

theorem colVal_lt_of_lexLt : ∀ l₁ l₂ : List Char, validCol l₁ → validCol l₂ →
    l₁.length = l₂.length → lexLt l₁ l₂ = true → colVal l₁ < colVal l₂ := by
  intro l₁
  induction l₁ with
  | nil =>
    intro l₂ _ _ hlen hlex
    cases l₂ with
    | nil => simp [lexLt] at hlex
    | cons b t => simp at hlen
  | cons a s ih =>
    intro l₂ hv₁ hv₂ hlen hlex
    cases l₂ with
    | nil => simp at hlen
    | cons b t =>
      have ha := hv₁ a (List.mem_cons_self a s)
      have hb := hv₂ b (List.mem_cons_self b t)
      have hlen' : s.length = t.length := by simpa using hlen
      rw [colVal_cons, colVal_cons, ← hlen']
      by_cases hab : a.toNat < b.toNat
      · -- first differing character already decides the comparison
        have hd : a.toNat - 65 + 1 + 1 ≤ b.toNat - 65 + 1 := by omega
        have hup : colVal s ≤ 26 * Lsum s.length :=
          colVal_le_of_valid (fun d hd2 => hv₁ d (List.mem_cons_of_mem a hd2))
        have hlo : Lsum t.length ≤ colVal t := Lsum_le_colVal t
        have hpow := Lsum_succ_eq s.length
        have hstep : (a.toNat - 65 + 1) * 26 ^ s.length + 26 * Lsum s.length <
            (a.toNat - 65 + 1 + 1) * 26 ^ s.length + Lsum s.length := by
          have : (a.toNat - 65 + 1 + 1) * 26 ^ s.length =
              (a.toNat - 65 + 1) * 26 ^ s.length + 26 ^ s.length := by ring
          omega
        have hmul : (a.toNat - 65 + 1 + 1) * 26 ^ s.length ≤
            (b.toNat - 65 + 1) * 26 ^ s.length := Nat.mul_le_mul_right _ hd
        rw [← hlen'] at hlo
        omega
      · by_cases hba : b.toNat < a.toNat
        · simp [lexLt, hab, hba] at hlex
        · have heq : a.toNat = b.toNat := by omega
          have hlex' : lexLt s t = true := by
            simpa [lexLt, hab, hba] using hlex
          have := ih t (fun d hd2 => hv₁ d (List.mem_cons_of_mem a hd2))
            (fun d hd2 => hv₂ d (List.mem_cons_of_mem b hd2)) hlen' hlex'
          rw [heq, hlen']
          exact Nat.add_lt_add_left this _

theorem map_eq_self_of_fixed {f : Char → Char} {l : List Char}
    (h : ∀ c ∈ l, f c = c) : l.map f = l := by
  induction l with
  | nil => rfl
  | cons c cs ih =>
    rw [List.map_cons, h c (List.mem_cons_self c cs),
      ih (fun d hd => h d (List.mem_cons_of_mem c hd))]

theorem pyStrip_valid {l : List Char} (h : validCol l) : pyStrip l = l := by
  refine pyStrip_eq_self_of_all (fun c hc => ?_)
  have := h c hc
  simp only [isPySpace, Bool.or_eq_false_iff, beq_eq_false_iff_ne, ne_eq]
  omega

theorem pyUpper_valid {l : List Char} (h : validCol l) : pyUpper l = l := by
  refine map_eq_self_of_fixed (fun c hc => ?_)
  have := h c hc
  unfold pyUpperChar
  rw [if_neg (by omega)]

theorem colFold_valid {l : List Char} (h : validCol l) :
    ∀ acc, colFold acc l = some (l.foldl colStep acc) := by
  induction l with
  | nil => intro acc; rfl
  | cons c cs ih =>
    intro acc
    unfold colFold
    rw [if_pos (h c (List.mem_cons_self c cs))]
    exact ih (fun d hd => h d (List.mem_cons_of_mem c hd)) _

theorem excel_col_to_index_valid {s : String} (h : validCol s.data) :
    excel_col_to_index s = some ((colVal s.data : Int) - 1) := by
  unfold excel_col_to_index
  rw [pyStrip_valid h, pyUpper_valid h, colFold_valid h 0]
  rfl

/-- C2: the decoder sends `"A"`, `"Z"`, `"AA"`, `"G"` to 0, 25, 26, 6, and
on labels over `A`..`Z` it is strictly increasing under the base-26
shortlex ordering. -/
theorem column_decode_monotone :
    excel_col_to_index "A" = some 0 ∧
    excel_col_to_index "Z" = some 25 ∧
    excel_col_to_index "AA" = some 26 ∧
    excel_col_to_index "G" = some 6 ∧
    (∀ s₁ s₂ : String, validCol s₁.data → validCol s₂.data →
      shortlex s₁.data s₂.data →
      ∃ v₁ v₂ : Int, excel_col_to_index s₁ = some v₁ ∧
        excel_col_to_index s₂ = some v₂ ∧ v₁ < v₂) := by
  refine ⟨by decide, by decide, by decide, by decide, ?_⟩
  intro s₁ s₂ hv₁ hv₂ hsl
  refine ⟨(colVal s₁.data : Int) - 1, (colVal s₂.data : Int) - 1,
    excel_col_to_index_valid hv₁, excel_col_to_index_valid hv₂, ?_⟩
  have : colVal s₁.data < colVal s₂.data := by
    rcases hsl with hlen | ⟨hlen, hlex⟩
    · exact colVal_lt_of_length_lt hv₁ hlen
    · exact colVal_lt_of_lexLt _ _ hv₁ hv₂ hlen hlex
  omega

theorem column_decode_monotone_witness :
    validCol ("A" : String).data ∧ validCol ("AB" : String).data ∧
    shortlex ("A" : String).data ("AB" : String).data ∧
    ∃ v₁ v₂ : Int, excel_col_to_index "A" = some v₁ ∧
      excel_col_to_index "AB" = some v₂ ∧ v₁ < v₂ :=
  ⟨by decide, by decide, by decide,
    column_decode_monotone.2.2.2.2 "A" "AB" (by decide) (by decide) (by decide)⟩

/-! ### C7: invalid column letters abort the conversion -/

/-- C7: when either configured column letter is invalid, the conversion
raises before any worksheet call: the result is the request-level
`invalidColumn` failure and no action trace is produced. -/
theorem invalid_column_aborts (eanL bcL : String) (hr ds : Int)
    (df : DataFrame) (render : Int → String → Sym → Bool)
    (h : excel_col_to_index eanL = none ∨ excel_col_to_index bcL = none) :
    generate_excel_with_barcodes eanL bcL hr ds df render =
      Except.error GenError.invalidColumn := by
  unfold generate_excel_with_barcodes
  rcases h with h | h
  · rw [h]
  · cases hE : excel_col_to_index eanL with
    | none => rfl
    | some i => rw [h]

theorem invalid_column_aborts_witness :
    excel_col_to_index "A!" = none ∧
    generate_excel_with_barcodes "A!" "B" 13 14
      ⟨1, 1, fun _ _ => some "5"⟩ (fun _ _ _ => true) =
      Except.error GenError.invalidColumn :=
  ⟨by decide, invalid_column_aborts "A!" "B" 13 14 _ _ (Or.inl (by decide))⟩

/-! ### C6: which labels make the resolver fail

The claim that every label containing a character outside `A`..`Z` is
rejected is false: the label is stripped and uppercased first, so `"b"`
(which contains no character in `A`..`Z`) resolves to index 1. -/

/-- C6 counterexample: `"b"` contains a non-`A`..`Z` character, yet the
resolver returns an index instead of failing. -/
theorem lowercase_label_accepted :
    ('b' ∈ ("b" : String).data ∧ ¬(65 ≤ 'b'.toNat ∧ 'b'.toNat ≤ 90)) ∧
    excel_col_to_index "b" = some 1 := by decide

theorem colFold_eq_none {l : List Char} (acc : Nat)
    (h : ∃ c ∈ l, ¬(65 ≤ c.toNat ∧ c.toNat ≤ 90)) : colFold acc l = none := by
  induction l generalizing acc with
  | nil => simp at h
  | cons c cs ih =>
    rcases h with ⟨d, hd, hbad⟩
    unfold colFold
    rcases List.mem_cons.mp hd with rfl | hmem
    · rw [if_neg hbad]
    · split
      · exact ih _ ⟨d, hmem, hbad⟩
      · rfl

/-- C6 amended: the resolver fails on every label whose stripped and
uppercased form still contains a character outside `A`..`Z`. -/
theorem invalid_label_rejected (s : String)
    (h : ∃ c ∈ pyUpper (pyStrip s.data), ¬(65 ≤ c.toNat ∧ c.toNat ≤ 90)) :
    excel_col_to_index s = none := by
  unfold excel_col_to_index
  rw [colFold_eq_none 0 h]
  rfl

theorem invalid_label_rejected_witness :
    (∃ c ∈ pyUpper (pyStrip ("A1" : String).data),
      ¬(65 ≤ c.toNat ∧ c.toNat ≤ 90)) ∧
    excel_col_to_index "A1" = none :=
  ⟨by decide, invalid_label_rejected "A1" (by decide)⟩

/-! ### Structure of the action trace of a successful conversion -/

theorem widen_nrows (df : DataFrame) (idx : Int) :
    (widen df idx).nrows = df.nrows := by
  unfold widen; split <;> rfl

theorem widen_ncols_ge (df : DataFrame) (idx : Int) :
    df.ncols ≤ (widen df idx).ncols := by
  unfold widen
  by_cases h : (df.ncols : Int) ≤ idx
  · rw [if_pos h]
    show df.ncols ≤ idx.toNat + 1
    omega
  · rw [if_neg h]

theorem widen_data_lt (df : DataFrame) (idx : Int) {r c : Nat}
    (h : c < df.ncols) : (widen df idx).data r c = df.data r c := by
  unfold widen
  split
  · show (if c < df.ncols then df.data r c else none) = df.data r c
    rw [if_pos h]
  · rfl

/-- C10's widening bound: the widened table always has strictly more
columns than the barcode column index. -/
theorem widen_idx_lt (df : DataFrame) (idx : Int) :
    idx < ((widen df idx).ncols : Int) := by
  unfold widen
  by_cases h : (df.ncols : Int) ≤ idx
  · rw [if_pos h]
    show idx < ((idx.toNat + 1 : Nat) : Int)
    omega
  · rw [if_neg h]
    omega

theorem intRange_cons {a b : Int} (h : a < b) :
    intRange a b = a :: intRange (a + 1) b := by
  unfold intRange
  have h2 : (b - a).toNat = (b - (a + 1)).toNat + 1 := by omega
  rw [h2, List.range_succ_eq_map, List.map_cons, List.map_map]
  refine congrArg₂ _ (by simp) (List.map_congr_left (fun k _ => ?_))
  show a + ((k + 1 : Nat) : Int) = a + 1 + (k : Int)
  push_cast
  ring

theorem mem_catList {a : α} : ∀ {ls : List (List α)},
    a ∈ catList ls ↔ ∃ l ∈ ls, a ∈ l := by
  intro ls
  induction ls with
  | nil => simp [catList]
  | cons l ls ih => simp [catList, ih]

theorem mem_copyActions {df : DataFrame} {a : Action} :
    a ∈ copyActions df ↔ ∃ r c v, r < df.nrows ∧ c < df.ncols ∧
      df.data r c = some v ∧ a = Action.writeCell (r : Int) (c : Int) v := by
  unfold copyActions
  rw [mem_catList]
  constructor
  · rintro ⟨l, hl, hal⟩
    rcases List.mem_map.mp hl with ⟨r, hr, rfl⟩
    rcases List.mem_filterMap.mp hal with ⟨c, hc, hco⟩
    rcases Option.map_eq_some'.mp hco with ⟨v, hv, rfl⟩
    exact ⟨r, c, v, List.mem_range.mp hr, List.mem_range.mp hc, hv, rfl⟩
  · rintro ⟨r, c, v, hr, hc, hv, rfl⟩
    refine ⟨(List.range df.ncols).filterMap (fun c =>
      (df.data r c).map (fun v => Action.writeCell (r : Int) (c : Int) v)),
      List.mem_map.mpr ⟨r, List.mem_range.mpr hr, rfl⟩, ?_⟩
    exact List.mem_filterMap.mpr ⟨c, List.mem_range.mpr hc, by rw [hv]; rfl⟩

/-- Every action emitted by the barcode loop is an image insertion at the
barcode column or a logged per-row failure. -/
theorem barcodeLoop_shape {df : DataFrame} {eanIdx bcIdx : Int}
    {render : Int → String → Sym → Bool} :
    ∀ {rs : List Int} {loopActs : List Action},
    barcodeLoop df eanIdx bcIdx render rs = Except.ok loopActs →
    ∀ a ∈ loopActs,
      (∃ r code sym, a = Action.insertImage r bcIdx code sym) ∨
      (∃ r code, a = Action.logError r code) := by
  intro rs
  induction rs with
  | nil =>
    intro loopActs h a ha
    cases h
    simp at ha
  | cons r rs ih =>
    intro loopActs h a ha
    unfold barcodeLoop at h
    cases hstep : rowStep df eanIdx bcIdx render r with
    | error e => rw [hstep] at h; cases h
    | ok first =>
      rw [hstep] at h
      cases hrest : barcodeLoop df eanIdx bcIdx render rs with
      | error e => rw [hrest] at h; cases h
      | ok rest =>
        rw [hrest] at h
        cases h
        rcases List.mem_append.mp ha with hfirst | hr2
        · -- the head action comes from one `rowStep`
          unfold rowStep at hstep
          cases hread : iat df r eanIdx with
          | error e => rw [hread] at hstep; cases hstep
          | ok cell =>
            rw [hread] at hstep
            cases cell with
            | none => cases hstep; simp at hfirst
            | some v =>
              dsimp only at hstep
              cases hnorm : normalize_code (some v) with
              | none => rw [hnorm] at hstep; cases hstep; simp at hfirst
              | some code =>
                rw [hnorm] at hstep
                dsimp only at hstep
                by_cases hrend : render r code (selectSymbology code) = true
                · rw [if_pos hrend] at hstep
                  cases hstep
                  rcases List.mem_singleton.mp hfirst with rfl
                  exact Or.inl ⟨r, code, selectSymbology code, rfl⟩
                · rw [if_neg hrend] at hstep
                  cases hstep
                  rcases List.mem_singleton.mp hfirst with rfl
                  exact Or.inr ⟨r + 1, code, rfl⟩
        · exact ih hrest a hr2

/-- A successful run decomposes into the copy pass, the header write, the
formatting calls and the barcode-loop actions, in that order. -/
theorem generate_ok_elim {eanL bcL : String} {hr ds : Int} {df : DataFrame}
    {render : Int → String → Sym → Bool} {acts : List Action}
    {eanIdx bcIdx : Int}
    (hE : excel_col_to_index eanL = some eanIdx)
    (hB : excel_col_to_index bcL = some bcIdx)
    (hok : generate_excel_with_barcodes eanL bcL hr ds df render =
      Except.ok acts) :
    ∃ loopActs,
      barcodeLoop (widen df bcIdx) eanIdx bcIdx render
        (intRange (ds - 1) ((widen df bcIdx).nrows : Int)) =
        Except.ok loopActs ∧
      acts = copyActions (widen df bcIdx)
        ++ [Action.writeCell (hr - 1) bcIdx "Barcode"]
        ++ [Action.setColumn bcIdx]
        ++ (intRange (ds - 1) ((widen df bcIdx).nrows : Int)).map Action.setRow
        ++ loopActs := by
  unfold generate_excel_with_barcodes at hok
  rw [hE, hB] at hok
  dsimp only at hok
  cases hL : barcodeLoop (widen df bcIdx) eanIdx bcIdx render
      (intRange (ds - 1) ((widen df bcIdx).nrows : Int)) with
  | error e => rw [hL] at hok; cases hok
  | ok loopActs =>
    rw [hL] at hok
    cases hok
    exact ⟨loopActs, rfl, rfl⟩

/-- A row step succeeds exactly when the source-cell read succeeds; the
rendering oracle never decides success of the step. -/
theorem rowStep_ok_iff_iat {df : DataFrame} {eanIdx bcIdx : Int}
    {render : Int → String → Sym → Bool} {r : Int} :
    (∃ a, rowStep df eanIdx bcIdx render r = Except.ok a) ↔
      ∃ v, iat df r eanIdx = Except.ok v := by
  unfold rowStep
  cases hi : iat df r eanIdx with
  | error e => simp
  | ok cell =>
    refine ⟨fun _ => ⟨cell, rfl⟩, fun _ => ?_⟩
    cases cell with
    | none => exact ⟨[], rfl⟩
    | some v =>
      dsimp only
      cases hnorm : normalize_code (some v) with
      | none => exact ⟨[], rfl⟩
      | some code =>
        dsimp only
        by_cases hrend : render r code (selectSymbology code) = true
        · rw [if_pos hrend]; exact ⟨_, rfl⟩
        · rw [if_neg hrend]; exact ⟨_, rfl⟩

/-- The loop succeeds exactly when every listed row's source read succeeds,
independently of rendering outcomes. -/
theorem barcodeLoop_ok_iff (df : DataFrame) (eanIdx bcIdx : Int)
    (render : Int → String → Sym → Bool) (rs : List Int) :
    (∃ acts, barcodeLoop df eanIdx bcIdx render rs = Except.ok acts) ↔
      ∀ r ∈ rs, ∃ v, iat df r eanIdx = Except.ok v := by
  induction rs with
  | nil => exact ⟨fun _ => by simp, fun _ => ⟨[], rfl⟩⟩
  | cons r0 rs ih =>
    constructor
    · rintro ⟨acts, h⟩
      unfold barcodeLoop at h
      cases hstep : rowStep df eanIdx bcIdx render r0 with
      | error e => rw [hstep] at h; cases h
      | ok a =>
        rw [hstep] at h
        cases hrest : barcodeLoop df eanIdx bcIdx render rs with
        | error e => rw [hrest] at h; cases h
        | ok rest =>
          intro r hrr
          rcases List.mem_cons.mp hrr with rfl | hmem
          · exact rowStep_ok_iff_iat.mp ⟨a, hstep⟩
          · exact (ih.mp ⟨rest, hrest⟩) r hmem
    · intro h
      rcases rowStep_ok_iff_iat.mpr (h r0 (List.mem_cons_self r0 rs)) with ⟨a, ha⟩
      rcases ih.mpr (fun r hr => h r (List.mem_cons_of_mem r0 hr)) with ⟨rest, hrest⟩
      refine ⟨a ++ rest, ?_⟩
      unfold barcodeLoop
      rw [ha, hrest]

/-- A failed source read on the first processed row raises out of the loop. -/
theorem barcodeLoop_error_head {df : DataFrame} {eanIdx bcIdx : Int}
    {render : Int → String → Sym → Bool} {r : Int} (rs : List Int)
    (h : iat df r eanIdx = Except.error GenError.indexError) :
    barcodeLoop df eanIdx bcIdx render (r :: rs) =
      Except.error GenError.indexError := by
  unfold barcodeLoop
  have hstep : rowStep df eanIdx bcIdx render r =
      Except.error GenError.indexError := by
    unfold rowStep
    rw [h]
  rw [hstep]

/-- A row whose rendering fails contributes exactly its log entry. -/
theorem barcodeLoop_log_mem {df : DataFrame} {eanIdx bcIdx : Int}
    {render : Int → String → Sym → Bool} :
    ∀ {rs : List Int} {loopActs : List Action},
    barcodeLoop df eanIdx bcIdx render rs = Except.ok loopActs →
    ∀ {r : Int} {v code : String}, r ∈ rs →
    iat df r eanIdx = Except.ok (some v) →
    normalize_code (some v) = some code →
    render r code (selectSymbology code) = false →
    Action.logError (r + 1) code ∈ loopActs := by
  intro rs
  induction rs with
  | nil =>
    intro loopActs _ r v code hrr
    simp at hrr
  | cons r0 rs ih =>
    intro loopActs h r v code hrr hread hnorm hfail
    unfold barcodeLoop at h
    cases hstep : rowStep df eanIdx bcIdx render r0 with
    | error e => rw [hstep] at h; cases h
    | ok a =>
      rw [hstep] at h
      cases hrest : barcodeLoop df eanIdx bcIdx render rs with
      | error e => rw [hrest] at h; cases h
      | ok rest =>
        rw [hrest] at h
        cases h
        rcases List.mem_cons.mp hrr with rfl | hmem
        · have : rowStep df eanIdx bcIdx render r =
              Except.ok [Action.logError (r + 1) code] := by
            unfold rowStep
            rw [hread]
            dsimp only
            rw [hnorm]
            dsimp only
            rw [if_neg (by simp [hfail])]
          rw [this] at hstep
          cases hstep
          exact List.mem_append_left _ (List.mem_singleton.mpr rfl)
        · exact List.mem_append_right _ (ih hrest hmem hread hnorm hfail)

/-- The positive half of the frame property: a non-empty input cell is
written at its own coordinates by a successful conversion. -/
theorem copy_write_mem {eanL bcL : String} {hr ds : Int} {df : DataFrame}
    {render : Int → String → Sym → Bool} {acts : List Action}
    {eanIdx bcIdx : Int}
    (hE : excel_col_to_index eanL = some eanIdx)
    (hB : excel_col_to_index bcL = some bcIdx)
    (hok : generate_excel_with_barcodes eanL bcL hr ds df render =
      Except.ok acts)
    {r c : Nat} {v : String} (hrn : r < df.nrows) (hcn : c < df.ncols)
    (hv : df.data r c = some v) :
    Action.writeCell (r : Int) (c : Int) v ∈ acts := by
  rcases generate_ok_elim hE hB hok with ⟨loopActs, _, rfl⟩
  refine List.mem_append_left _ (List.mem_append_left _
    (List.mem_append_left _ (List.mem_append_left _ ?_)))
  refine mem_copyActions.mpr ⟨r, c, v, ?_, ?_, ?_, rfl⟩
  · rw [widen_nrows]; exact hrn
  · exact Nat.lt_of_lt_of_le hcn (widen_ncols_ge df bcIdx)
  · rw [widen_data_lt df bcIdx hcn]; exact hv

/-! ### C3: the copy pass is a faithful frame -/

/-- C3: in a successful conversion, every non-empty input cell outside the
barcode column is written unchanged at its own coordinates; empty input
cells outside the barcode column are never written (not even as blanks);
and the trace splits into a prefix holding every cell write and a suffix
holding every image insertion, so the copy precedes all image placement. -/
theorem copy_roundtrip (eanL bcL : String) (hr ds : Int) (df : DataFrame)
    (render : Int → String → Sym → Bool) (acts : List Action) (bcIdx : Int)
    (hB : excel_col_to_index bcL = some bcIdx)
    (hok : generate_excel_with_barcodes eanL bcL hr ds df render =
      Except.ok acts) :
    (∀ (r c : Nat) (v : String), r < df.nrows → c < df.ncols →
      (c : Int) ≠ bcIdx → df.data r c = some v →
      Action.writeCell (r : Int) (c : Int) v ∈ acts) ∧
    (∀ r c : Nat, r < df.nrows → c < df.ncols → (c : Int) ≠ bcIdx →
      df.data r c = none → ∀ w : String,
      Action.writeCell (r : Int) (c : Int) w ∉ acts) ∧
    (∃ pre post, acts = pre ++ post ∧
      (∀ a ∈ pre, ∀ (r2 c2 : Int) (code : String) (sym : Sym),
        a ≠ Action.insertImage r2 c2 code sym) ∧
      (∀ a ∈ post, ∀ (r2 c2 : Int) (w : String),
        a ≠ Action.writeCell r2 c2 w)) := by
  cases hE : excel_col_to_index eanL with
  | none =>
    exfalso
    unfold generate_excel_with_barcodes at hok
    rw [hE] at hok
    cases hok
  | some eanIdx =>
  rcases generate_ok_elim hE hB hok with ⟨loopActs, hL, hacts⟩
  refine ⟨fun r c v hrn hcn _ hv => copy_write_mem hE hB hok hrn hcn hv,
    ?_, ?_⟩
  · intro r c hrn hcn hcne hnone w hmem
    rw [hacts] at hmem
    rcases List.mem_append.mp hmem with hmem | hloop
    rcases List.mem_append.mp hmem with hmem | hrows
    rcases List.mem_append.mp hmem with hmem | hsetcol
    rcases List.mem_append.mp hmem with hcopy | hheader
    · rcases mem_copyActions.mp hcopy with ⟨r2, c2, v2, _, _, hv2, heq⟩
      rw [Action.writeCell.injEq] at heq
      rcases heq with ⟨hre, hce, rfl⟩
      have hr2 : r = r2 := Nat.cast_inj.mp hre
      have hc2 : c = c2 := Nat.cast_inj.mp hce
      rw [← hr2, ← hc2, widen_data_lt df bcIdx hcn, hnone] at hv2
      cases hv2
    · rcases List.mem_singleton.mp hheader with heq
      rw [Action.writeCell.injEq] at heq
      exact hcne heq.2.1
    · rcases List.mem_singleton.mp hsetcol with heq
      cases heq
    · rcases List.mem_map.mp hrows with ⟨r2, _, heq⟩
      cases heq
    · rcases barcodeLoop_shape hL _ hloop with ⟨r2, code, sym, heq⟩ |
        ⟨r2, code, heq⟩ <;> cases heq
  · refine ⟨copyActions (widen df bcIdx)
      ++ [Action.writeCell (hr - 1) bcIdx "Barcode"]
      ++ [Action.setColumn bcIdx]
      ++ (intRange (ds - 1) ((widen df bcIdx).nrows : Int)).map Action.setRow,
      loopActs, by rw [hacts], ?_, ?_⟩
    · intro a ha r2 c2 code sym heq
      subst heq
      rcases List.mem_append.mp ha with ha | hrows
      rcases List.mem_append.mp ha with ha | hsetcol
      rcases List.mem_append.mp ha with hcopy | hheader
      · rcases mem_copyActions.mp hcopy with ⟨_, _, _, _, _, _, heq2⟩
        cases heq2
      · cases List.mem_singleton.mp hheader
      · cases List.mem_singleton.mp hsetcol
      · rcases List.mem_map.mp hrows with ⟨_, _, heq2⟩
        cases heq2
    · intro a ha r2 c2 w heq
      subst heq
      rcases barcodeLoop_shape hL _ ha with ⟨_, _, _, heq2⟩ | ⟨_, _, heq2⟩ <;>
        cases heq2

theorem copy_roundtrip_witness :
    (∀ (r c : Nat) (v : String),
      r < (1 : Nat) → c < (1 : Nat) → (c : Int) ≠ 1 →
      (if r = 0 ∧ c = 0 then some "12" else none) = some v →
      Action.writeCell (r : Int) (c : Int) v ∈
        [Action.writeCell 0 0 "12", Action.writeCell 0 1 "Barcode",
         Action.setColumn 1, Action.setRow 0,
         Action.insertImage 0 1 "12" Sym.code128]) ∧
    (∀ r c : Nat, r < (1 : Nat) → c < (1 : Nat) → (c : Int) ≠ 1 →
      (if r = 0 ∧ c = 0 then some "12" else none) = none → ∀ w : String,
      Action.writeCell (r : Int) (c : Int) w ∉
        [Action.writeCell 0 0 "12", Action.writeCell 0 1 "Barcode",
         Action.setColumn 1, Action.setRow 0,
         Action.insertImage 0 1 "12" Sym.code128]) ∧
    (∃ pre post,
      [Action.writeCell 0 0 "12", Action.writeCell 0 1 "Barcode",
       Action.setColumn 1, Action.setRow 0,
       Action.insertImage 0 1 "12" Sym.code128] = pre ++ post ∧
      (∀ a ∈ pre, ∀ (r2 c2 : Int) (code : String) (sym : Sym),
        a ≠ Action.insertImage r2 c2 code sym) ∧
      (∀ a ∈ post, ∀ (r2 c2 : Int) (w : String),
        a ≠ Action.writeCell r2 c2 w)) :=
  copy_roundtrip "A" "B" 1 1
    ⟨1, 1, fun r c => if r = 0 ∧ c = 0 then some "12" else none⟩
    (fun _ _ _ => true) _ 1 (by decide) rfl

/-! ### C4: render failures are logged, row-local and non-fatal -/

/-- C4: if the rendering of a processed row fails, a successful conversion
still contains the log entry carrying that row's 1-based index; the
conversion's success never depends on the rendering oracle (so a per-row
render failure cannot abort it); and every non-empty input cell outside the
barcode column is still copied into the trace. -/
theorem render_failure_row_local (eanL bcL : String) (hr ds : Int)
    (df : DataFrame) (render : Int → String → Sym → Bool)
    (acts : List Action) (eanIdx bcIdx : Int)
    (hE : excel_col_to_index eanL = some eanIdx)
    (hB : excel_col_to_index bcL = some bcIdx)
    (hok : generate_excel_with_barcodes eanL bcL hr ds df render =
      Except.ok acts)
    (r : Int) (v code : String)
    (hrmem : r ∈ intRange (ds - 1) ((widen df bcIdx).nrows : Int))
    (hread : iat (widen df bcIdx) r eanIdx = Except.ok (some v))
    (hnorm : normalize_code (some v) = some code)
    (hfail : render r code (selectSymbology code) = false) :
    Action.logError (r + 1) code ∈ acts ∧
    (∀ render' : Int → String → Sym → Bool, ∃ acts',
      generate_excel_with_barcodes eanL bcL hr ds df render' =
        Except.ok acts') ∧
    (∀ (r2 c2 : Nat) (w : String), r2 < df.nrows → c2 < df.ncols →
      (c2 : Int) ≠ bcIdx → df.data r2 c2 = some w →
      Action.writeCell (r2 : Int) (c2 : Int) w ∈ acts) := by
  rcases generate_ok_elim hE hB hok with ⟨loopActs, hL, hacts⟩
  refine ⟨?_, ?_, fun r2 c2 w hr2 hc2 _ hw => copy_write_mem hE hB hok hr2 hc2 hw⟩
  · rw [hacts]
    exact List.mem_append_right _
      (barcodeLoop_log_mem hL hrmem hread hnorm hfail)
  · intro render'
    have hiat : ∀ r0 ∈ intRange (ds - 1) ((widen df bcIdx).nrows : Int),
        ∃ v0, iat (widen df bcIdx) r0 eanIdx = Except.ok v0 :=
      (barcodeLoop_ok_iff _ _ _ _ _).mp ⟨loopActs, hL⟩
    rcases (barcodeLoop_ok_iff (widen df bcIdx) eanIdx bcIdx render'
      (intRange (ds - 1) ((widen df bcIdx).nrows : Int))).mpr hiat
      with ⟨acts', hL'⟩
    refine ⟨copyActions (widen df bcIdx)
      ++ [Action.writeCell (hr - 1) bcIdx "Barcode"]
      ++ [Action.setColumn bcIdx]
      ++ (intRange (ds - 1) ((widen df bcIdx).nrows : Int)).map Action.setRow
      ++ acts', ?_⟩
    unfold generate_excel_with_barcodes
    rw [hE, hB]
    dsimp only
    rw [hL']

theorem render_failure_row_local_witness :
    Action.logError 1 "12" ∈
      [Action.writeCell 0 0 "12", Action.writeCell 0 1 "Barcode",
       Action.setColumn 1, Action.setRow 0, Action.logError 1 "12"] ∧
    (∀ render' : Int → String → Sym → Bool, ∃ acts',
      generate_excel_with_barcodes "A" "B" 1 1
        ⟨1, 1, fun r c => if r = 0 ∧ c = 0 then some "12" else none⟩
        render' = Except.ok acts') ∧
    (∀ (r2 c2 : Nat) (w : String), r2 < (1 : Nat) → c2 < (1 : Nat) →
      (c2 : Int) ≠ 1 →
      (if r2 = 0 ∧ c2 = 0 then some "12" else none) = some w →
      Action.writeCell (r2 : Int) (c2 : Int) w ∈
        [Action.writeCell 0 0 "12", Action.writeCell 0 1 "Barcode",
         Action.setColumn 1, Action.setRow 0, Action.logError 1 "12"]) := by
  have h := render_failure_row_local "A" "B" 1 1
    ⟨1, 1, fun r c => if r = 0 ∧ c = 0 then some "12" else none⟩
    (fun _ _ _ => false) _ 0 1 (by decide) (by decide) rfl
    0 "12" "12" (by decide) rfl (by decide) rfl
  exact ⟨h.1, h.2.1, h.2.2⟩

/-! ### C10: widening keeps destination writes in bounds; the source
column is not widened -/

/-- C10: the widened table always has strictly more columns than the
barcode column index, every image insertion of a successful run targets
exactly that in-bounds column (as do the header write and width call, which
are issued at the same index), and no widening helps the source column: if
the source index is at or beyond the widened column count and at least one
data row exists, the per-row source read raises `IndexError`. -/
theorem widen_bounds_and_source_failure (eanL bcL : String) (hr ds : Int)
    (df : DataFrame) (render : Int → String → Sym → Bool)
    (eanIdx bcIdx : Int)
    (hE : excel_col_to_index eanL = some eanIdx)
    (hB : excel_col_to_index bcL = some bcIdx) :
    bcIdx < ((widen df bcIdx).ncols : Int) ∧
    (∀ acts, generate_excel_with_barcodes eanL bcL hr ds df render =
      Except.ok acts →
      ∀ (r c : Int) (code : String) (sym : Sym),
        Action.insertImage r c code sym ∈ acts → c = bcIdx) ∧
    (((widen df bcIdx).ncols : Int) ≤ eanIdx → 0 ≤ ds - 1 →
      ds - 1 < ((widen df bcIdx).nrows : Int) →
      generate_excel_with_barcodes eanL bcL hr ds df render =
        Except.error GenError.indexError) := by
  refine ⟨widen_idx_lt df bcIdx, ?_, ?_⟩
  · intro acts hok r c code sym hmem
    rcases generate_ok_elim hE hB hok with ⟨loopActs, hL, rfl⟩
    rcases List.mem_append.mp hmem with hmem | hloop
    · exfalso
      rcases List.mem_append.mp hmem with hmem | hrows
      rcases List.mem_append.mp hmem with hmem | hsetcol
      rcases List.mem_append.mp hmem with hcopy | hheader
      · rcases mem_copyActions.mp hcopy with ⟨_, _, _, _, _, _, heq⟩
        cases heq
      · cases List.mem_singleton.mp hheader
      · cases List.mem_singleton.mp hsetcol
      · rcases List.mem_map.mp hrows with ⟨_, _, heq⟩
        cases heq
    · rcases barcodeLoop_shape hL _ hloop with ⟨r2, code2, sym2, heq⟩ |
        ⟨r2, code2, heq⟩
      · rw [Action.insertImage.injEq] at heq
        exact heq.2.1
      · cases heq
  · intro hcols hds0 hdsn
    have hhead : intRange (ds - 1) ((widen df bcIdx).nrows : Int) =
        (ds - 1) :: intRange (ds - 1 + 1) ((widen df bcIdx).nrows : Int) :=
      intRange_cons hdsn
    have hiat : iat (widen df bcIdx) (ds - 1) eanIdx =
        Except.error GenError.indexError := by
      unfold iat
      have h1 : pyIdx (widen df bcIdx).nrows (ds - 1) =
          some (ds - 1).toNat := by
        unfold pyIdx
        rw [if_pos hds0, if_pos hdsn]
      have h2 : pyIdx (widen df bcIdx).ncols eanIdx = none := by
        unfold pyIdx
        rw [if_pos (by omega), if_neg (by omega)]
      rw [h1, h2]
    unfold generate_excel_with_barcodes
    rw [hE, hB]
    dsimp only
    rw [hhead, barcodeLoop_error_head _ hiat]

theorem widen_bounds_and_source_failure_witness :
    ((1 : Int) < (((widen ⟨1, 1, fun _ _ => some "5"⟩ 1).ncols : Nat) : Int)) ∧
    (((widen ⟨1, 1, fun _ _ => some "5"⟩ 1).ncols : Int) ≤ 2 ∧ (0 : Int) ≤ 0 ∧
      (0 : Int) < ((widen ⟨1, 1, fun _ _ => some "5"⟩ 1).nrows : Int)) ∧
    generate_excel_with_barcodes "C" "B" 1 1 ⟨1, 1, fun _ _ => some "5"⟩
      (fun _ _ _ => true) = Except.error GenError.indexError :=
  ⟨(widen_bounds_and_source_failure "C" "B" 1 1 ⟨1, 1, fun _ _ => some "5"⟩
      (fun _ _ _ => true) 2 1 (by decide) (by decide)).1,
    ⟨by decide, by decide, by decide⟩,
    (widen_bounds_and_source_failure "C" "B" 1 1 ⟨1, 1, fun _ _ => some "5"⟩
      (fun _ _ _ => true) 2 1 (by decide) (by decide)).2.2
      (by decide) (by decide) (by decide)⟩

end BarcodeApp
